import Mathlib

/-!
Verification of the one-pass statistics module (algorithms/algorithms.py).

The module computes running mean, variance and standard deviation over a
stream of spatio-temporal grid chunks, plus per-cell t-digest sketches.
All elementwise array arithmetic is modelled per spatial cell with exact
rationals (the Python code performs float64 arithmetic; the claims under
scrutiny are about the algebraic formulas and control flow, which this
exact model captures faithfully). A chunk, restricted to one spatial
cell, is the list of its values along the time axis.
-/

namespace OnePass

/-- Per-cell model of two_pass_mean: np.mean over the time axis with
dtype float64, i.e. the arithmetic mean of the time series. -/
def two_pass_mean (c : List ℚ) : ℚ :=
  c.sum / (c.length : ℚ)

/-- Per-cell model of two_pass_var: np.var over the time axis with
ddof = 1, i.e. the sum of squared deviations from the two-pass mean
divided by (length - 1). -/
def two_pass_var (c : List ℚ) : ℚ :=
  (c.map (fun x => (x - two_pass_mean c) ^ 2)).sum / ((c.length : ℚ) - 1)

/-- Per-cell model of update_mean. The source first does n += w, then,
when w > 1, replaces the chunk by its two-pass mean along time (for
w = 1 the chunk is its single time slice, modelled by headI), and
finally sets mean_cumulative = mean_cumulative + w * (value - mean) / n
with the already-updated n. Returns (mean_cumulative, n) in the order
of the source return statement. -/
def update_mean (c : List ℚ) (w : ℕ) (n : ℤ) (mean_cumulative : ℚ) :
    ℚ × ℤ :=
  let n2 : ℤ := n + (w : ℤ)
  let value : ℚ := if 1 < w then two_pass_mean c else c.headI
  (mean_cumulative + (w : ℚ) * (value - mean_cumulative) / (n2 : ℚ), n2)

/-- Per-cell model of update_var. The source snapshots old_mean, then:
for w == 1 it first delegates to update_mean and adds
w * (chunk - old_mean) * (chunk - new_mean) to var_cumulative;
otherwise it adds two_pass_var * (w - 1) plus
(old_mean - two_pass_mean)^2 * ((n * w) / (n + w)) using the pre-update
n, and only afterwards delegates to update_mean. Returns
(n, mean_cumulative, var_cumulative) in source order. -/
def update_var (c : List ℚ) (w : ℕ) (n : ℤ)
    (mean_cumulative var_cumulative : ℚ) : ℤ × ℚ × ℚ :=
  let old_mean := mean_cumulative
  if w = 1 then
    let p := update_mean c w n mean_cumulative
    (p.2, p.1,
      var_cumulative + (w : ℚ) * (c.headI - old_mean) * (c.headI - p.1))
  else
    let temp_mean := two_pass_mean c
    let temp_var := two_pass_var c * ((w : ℚ) - 1)
    let v2 := var_cumulative + temp_var
      + (old_mean - temp_mean) ^ 2 * (((n : ℚ) * (w : ℚ)) / ((n : ℚ) + (w : ℚ)))
    let p := update_mean c w n mean_cumulative
    (p.2, p.1, v2)

/-- Per-cell content of the zero-filled accumulators produced by
init_mean and init_var: every entry of np.zeros is 0. -/
def init_zero_cell : ℚ := 0

/-- Symbolic per-cell result of np.sqrt: on a negative finite input
numpy returns NaN (emitting a runtime warning, not an exception); on a
nonnegative input it returns the square root, kept symbolic here since
the value may be irrational. -/
inductive SqrtResult where
  | nan : SqrtResult
  | sqrtOf (x : ℚ) : SqrtResult
deriving DecidableEq

/-- Numpy elementwise square root on one cell. -/
def np_sqrt (x : ℚ) : SqrtResult :=
  if x < 0 then SqrtResult.nan else SqrtResult.sqrtOf x

/-- Per-cell model of calc_std. The source assigns std_cumulative only
inside the branch (n - 1) != 0 and returns it unconditionally, so when
n = 1 the return statement raises UnboundLocalError; that crash path is
modelled by none. Otherwise it computes np.sqrt(var_cumulative / (n - 1))
directly, with no clamping step in between. -/
def calc_std (var_cumulative : ℚ) (n : ℤ) : Option SqrtResult :=
  if n - 1 ≠ 0 then some (np_sqrt (var_cumulative / ((n : ℚ) - 1)))
  else none

/-- Modelled from the spec: the Finalizer the spec describes clamps
negative entries of M2/(n-1) to 0 before the elementwise square root.
This clamping is what the source is compared against; the source itself
has no clamp. -/
def calc_std_spec_clamped (var_cumulative : ℚ) (n : ℤ) : Option SqrtResult :=
  if n - 1 ≠ 0 then some (np_sqrt (max (var_cumulative / ((n : ℚ) - 1)) 0))
  else none

/-- One t-digest sketch modelled by the list of values it has ingested,
in feeding order: TDigest.update with a scalar or with an array of
scalars appends those values to the stream the sketch has seen. -/
abbrev Digest := List ℚ

/-- Model of update_tdigest. The flat list models data_chunk.values in
C order: the value at time step t and flattened cell j sits at index
t * size_data_source_tail + j. For w == 1 the source reshapes the
values to (size_data_source_tail,) and feeds digest j the scalar at
index j; otherwise it reshapes to (w, -1) and feeds digest j column j;
afterwards n += w. -/
def update_tdigest (flat : List ℚ) (size_data_source_tail : ℕ)
    (digest_list : List Digest) (n : ℤ) (w : ℕ) : ℤ × List Digest :=
  if w = 1 then
    (n + (w : ℤ),
      (List.range size_data_source_tail).map
        (fun j => digest_list.getD j [] ++ [flat.getD j 0]))
  else
    (n + (w : ℤ),
      (List.range size_data_source_tail).map
        (fun j => digest_list.getD j []
          ++ (List.range w).map
              (fun t => flat.getD (t * size_data_source_tail + j) 0)))

/-- Driver loop folding update_var over a sequence of chunks in arrival
order, threading (n, mean, M2); each chunk is passed with w equal to
its time length, as the callers of the module do. -/
def run_var_stream (chunks : List (List ℚ)) (n : ℤ) (mean M2 : ℚ) :
    ℤ × ℚ × ℚ :=
  match chunks with
  | [] => (n, mean, M2)
  | c :: rest =>
      let r := update_var c c.length n mean M2
      run_var_stream rest r.1 r.2.1 r.2.2

/-- Shape-level model of an xarray DataArray: the ordered list of
(dimension name, length) pairs. Only shapes matter to the
initialization functions under scrutiny. -/
structure DataArray where
  dims : List (String × ℕ)
deriving DecidableEq

/-- Numpy shape of the array: the dim lengths in axis order. -/
def DataArray.shape (a : DataArray) : List ℕ := a.dims.map Prod.snd

/-- Model of data_chunk.tail(time=1): xarray keeps the last
min(length, 1) entries along the time dimension, and raises an error
(a ValueError naming the missing dimension) when the array has no
dimension called time; the raised error is modelled by none. -/
def tail_time1 (a : DataArray) : Option DataArray :=
  if (a.dims.map Prod.fst).contains "time" then
    some ⟨a.dims.map (fun p => if p.1 = "time" then (p.1, min p.2 1) else p)⟩
  else none

/-- Shape-level model of init_mean: np.zeros with the shape of
data_chunk.tail(time=1), every entry being init_zero_cell. -/
def init_mean (a : DataArray) : Option (List ℕ) :=
  (tail_time1 a).map DataArray.shape

/-- Input to init_var: the source dispatches on
type(data_chunk) == xr.DataArray, accepting either a labeled DataArray
or a plain numpy array, of which only the shape matters here. -/
inductive Chunk where
  | labeled : DataArray → Chunk
  | raw : List ℕ → Chunk

/-- Shape-level model of init_var: for a DataArray both accumulators
are np.zeros with the shape of tail(time=1); for a plain array they are
np.zeros with np.shape(data_chunk)[1:], the leading axis dropped. -/
def init_var : Chunk → Option (List ℕ × List ℕ)
  | Chunk.labeled a => (tail_time1 a).map (fun t => (t.shape, t.shape))
  | Chunk.raw s => some (s.drop 1, s.drop 1)

/-- Model of init_tdigests: the cell count is np.size of tail(time=1),
the product of its shape, and the result is that many fresh empty
digests paired with the count (the compression argument tunes only the
sketch accuracy, which the ingested-values model abstracts over). -/
def init_tdigests (a : DataArray) (compression : ℕ) :
    Option (List Digest × ℕ) :=
  (tail_time1 a).map
    (fun t => (List.replicate t.shape.prod ([] : Digest), t.shape.prod))

end OnePass

namespace OnePass

/-- C1: for a chunk of time length w > 1 and any prior state with
n >= 0, update_var returns count n + w, the mean delegated to
update_mean with the same chunk and pre-update n, and
M2 + (w - 1) * Var(chunk, ddof=1) + (oldMean - batchMean)^2 * (n*w)/(n+w),
where the cross term uses the pre-update mean and n. -/
theorem update_var_batch (c : List ℚ) (w : ℕ) (n : ℤ)
    (mean M2 : ℚ) (hw : w = c.length) (h2 : 1 < w) (hn : 0 ≤ n) :
    update_var c w n mean M2 =
      (n + (w : ℤ), (update_mean c w n mean).1,
        M2 + ((w : ℚ) - 1) * two_pass_var c
          + (mean - two_pass_mean c) ^ 2
            * ((n : ℚ) * (w : ℚ) / ((n : ℚ) + (w : ℚ)))) := by
  have hne : w ≠ 1 := by omega
  simp only [update_var, update_mean, if_neg hne]
  refine Prod.ext rfl (Prod.ext rfl ?_)
  ring

/-- Witness for update_var_batch at chunk [1, 3], n = 2, mean = 5,
M2 = 7. -/
theorem update_var_batch_witness :
    (2 : ℕ) = ([1, 3] : List ℚ).length ∧ 1 < 2 ∧ (0 : ℤ) ≤ 2 ∧
    update_var [1, 3] 2 2 5 7 =
      (2 + ((2 : ℕ) : ℤ), (update_mean [1, 3] 2 2 5).1,
        7 + (((2 : ℕ) : ℚ) - 1) * two_pass_var [1, 3]
          + (5 - two_pass_mean [1, 3]) ^ 2
            * (((2 : ℤ) : ℚ) * ((2 : ℕ) : ℚ)
              / (((2 : ℤ) : ℚ) + ((2 : ℕ) : ℚ)))) :=
  ⟨by decide, by decide, by decide,
    update_var_batch [1, 3] 2 2 5 7 (by decide) (by decide) (by decide)⟩

/-- C2: for a single-time-step chunk [x] and any prior state,
update_var first obtains the new mean from update_mean and returns
M2 + (x - oldMean) * (x - newMean) with count n + 1. -/
theorem update_var_single (x : ℚ) (n : ℤ) (mean M2 : ℚ) :
    update_var [x] 1 n mean M2 =
      (n + 1, (update_mean [x] 1 n mean).1,
        M2 + (x - mean) * (x - (update_mean [x] 1 n mean).1)) := by
  simp only [update_var, if_pos rfl]
  refine Prod.ext ?_ (Prod.ext rfl ?_)
  · show n + ((1 : ℕ) : ℤ) = n + 1
    norm_num
  · show M2 + ((1 : ℕ) : ℚ) * (([x] : List ℚ).headI - mean)
        * (([x] : List ℚ).headI - (update_mean [x] 1 n mean).1) =
      M2 + (x - mean) * (x - (update_mean [x] 1 n mean).1)
    simp only [List.headI, Nat.cast_one, one_mul]

/-- C4: starting from the zero-initialized state produced by init_var
(count 0, mean 0, M2 0), a single-sample update yields mean equal to
that sample, M2 = 0 and count 1, for every sample value x. -/
theorem update_var_first_sample (x : ℚ) :
    update_var [x] 1 0 init_zero_cell init_zero_cell = (1, x, 0) := by
  simp only [update_var, update_mean, init_zero_cell, if_pos rfl]
  refine Prod.ext rfl (Prod.ext ?_ ?_) <;> simp [List.headI]

/-- C3: update_mean returns count n + w and mean
mean + w * (value - mean) / (n + w), where value is the two-pass mean
of the chunk when w > 1 and the single time slice itself when w = 1. -/
theorem update_mean_spec (c : List ℚ) (w : ℕ) (n : ℤ) (mean : ℚ)
    (hw : w = c.length) (h1 : 1 ≤ w) (hn : 0 ≤ n) :
    (update_mean c w n mean).2 = n + (w : ℤ) ∧
    (1 < w → (update_mean c w n mean).1 =
      mean + (w : ℚ) * (two_pass_mean c - mean) / ((n : ℚ) + (w : ℚ))) ∧
    (∀ x : ℚ, c = [x] → (update_mean c w n mean).1 =
      mean + (x - mean) / ((n : ℚ) + 1)) := by
  refine ⟨rfl, ?_, ?_⟩
  · intro hlt
    simp only [update_mean, if_pos hlt]
    push_cast
    ring
  · intro x hx
    subst hx
    simp only [List.length_singleton] at hw
    subst hw
    simp only [update_mean, if_neg (by omega : ¬ 1 < 1), List.headI]
    push_cast
    ring

/-- Witness for update_mean_spec at chunk [4], w = 1, n = 3, mean = 2. -/
theorem update_mean_spec_witness :
    (1 : ℕ) = ([4] : List ℚ).length ∧ (1 : ℕ) ≤ 1 ∧ (0 : ℤ) ≤ 3 ∧
    ((update_mean [4] 1 3 2).2 = 3 + ((1 : ℕ) : ℤ) ∧
     (1 < 1 → (update_mean [4] 1 3 2).1 =
       2 + ((1 : ℕ) : ℚ) * (two_pass_mean [4] - 2)
         / (((3 : ℤ) : ℚ) + ((1 : ℕ) : ℚ))) ∧
     (∀ x : ℚ, ([4] : List ℚ) = [x] → (update_mean [4] 1 3 2).1 =
       2 + (x - 2) / (((3 : ℤ) : ℚ) + 1))) :=
  ⟨by decide, by decide, by decide,
    update_mean_spec [4] 1 3 2 (by decide) (by decide) (by decide)⟩

/-- C5: evaluating calc_std at the failing input n = 1 reaches the
crash path (the source raises UnboundLocalError there, since
std_cumulative is never assigned when n - 1 = 0), modelled by none. -/
theorem calc_std_n1_crash : calc_std 0 1 = none := rfl

/-- C6 counterexample: at M2 = -1, n = 2 the source passes the
negative value -1/(2-1) to np.sqrt unclamped and yields NaN, while the
clamping finalizer described by the claim would yield sqrt 0; so the
claim that negatives are clamped before the square root is false. -/
theorem calc_std_no_clamp_cex :
    calc_std (-1) 2 = some SqrtResult.nan ∧
    calc_std_spec_clamped (-1) 2 = some (SqrtResult.sqrtOf 0) ∧
    calc_std (-1) 2 ≠ calc_std_spec_clamped (-1) 2 := by
  have hval : calc_std (-1) 2 = some SqrtResult.nan := by
    simp only [calc_std]
    norm_num [np_sqrt]
  have hspec : calc_std_spec_clamped (-1) 2 = some (SqrtResult.sqrtOf 0) := by
    simp only [calc_std_spec_clamped]
    norm_num [np_sqrt]
  refine ⟨hval, hspec, ?_⟩
  rw [hval, hspec]
  simp

/-- C6 amended: for n - 1 different from 0, calc_std returns the
elementwise square root of M2/(n-1) applied directly with no clamping,
so a negative entry of M2/(n-1) reaches the square root and produces
NaN; no error is raised and no state is mutated. -/
theorem calc_std_formula (M2 : ℚ) (n : ℤ) (h : n - 1 ≠ 0) :
    calc_std M2 n = some (np_sqrt (M2 / ((n : ℚ) - 1))) ∧
    (M2 / ((n : ℚ) - 1) < 0 → calc_std M2 n = some SqrtResult.nan) := by
  constructor
  · simp [calc_std, h]
  · intro hneg
    simp [calc_std, h, np_sqrt, hneg]

/-- Witness for calc_std_formula at M2 = -1, n = 2. -/
theorem calc_std_formula_witness :
    ((2 : ℤ) - 1 ≠ 0) ∧
    (calc_std (-1) 2 = some (np_sqrt ((-1) / (((2 : ℤ) : ℚ) - 1))) ∧
     ((-1 : ℚ) / (((2 : ℤ) : ℚ) - 1) < 0 →
       calc_std (-1) 2 = some SqrtResult.nan)) :=
  ⟨by decide, calc_std_formula (-1) 2 (by decide)⟩

theorem getD_map_range {α : Type} (f : ℕ → α) (c j : ℕ) (d : α)
    (hj : j < c) : ((List.range c).map f).getD j d = f j := by
  simp [List.getD_eq_getElem?_getD, List.getElem?_map,
    List.getElem?_range hj]

/-- C9: for w >= 1, a flat value list of length w * c and a digest list
of length c, update_tdigest returns n + w and a digest list still of
length c in which digest j has additionally ingested the single scalar
at flat index j when w = 1, and the length-w column j of the (w, c)
reshape when w > 1. -/
theorem update_tdigest_spec (flat : List ℚ) (c : ℕ) (ds : List Digest)
    (n : ℤ) (w : ℕ) (hw : 1 ≤ w) (hflat : flat.length = w * c)
    (hd : ds.length = c) :
    (update_tdigest flat c ds n w).1 = n + (w : ℤ) ∧
    ((update_tdigest flat c ds n w).2).length = c ∧
    (∀ j, j < c → ((update_tdigest flat c ds n w).2).getD j [] =
      ds.getD j [] ++ (if w = 1 then [flat.getD j 0]
        else (List.range w).map (fun t => flat.getD (t * c + j) 0))) := by
  refine ⟨?_, ?_, ?_⟩
  · unfold update_tdigest
    split <;> rfl
  · unfold update_tdigest
    split <;> simp
  · intro j hj
    unfold update_tdigest
    by_cases h1 : w = 1
    · simp only [if_pos h1, getD_map_range _ _ _ _ hj]
    · simp only [if_neg h1, getD_map_range _ _ _ _ hj]

/-- Witness for update_tdigest_spec at flat = [10, 20, 30, 40], c = 2,
two digests, n = 5, w = 2. -/
theorem update_tdigest_spec_witness :
    (1 : ℕ) ≤ 2 ∧ ([10, 20, 30, 40] : List ℚ).length = 2 * 2 ∧
    ([[1], []] : List Digest).length = 2 ∧
    ((update_tdigest [10, 20, 30, 40] 2 [[1], []] 5 2).1 = 5 + ((2 : ℕ) : ℤ) ∧
     ((update_tdigest [10, 20, 30, 40] 2 [[1], []] 5 2).2).length = 2 ∧
     (∀ j, j < 2 →
       ((update_tdigest [10, 20, 30, 40] 2 [[1], []] 5 2).2).getD j [] =
         ([[1], []] : List Digest).getD j []
           ++ (if (2 : ℕ) = 1 then [([10, 20, 30, 40] : List ℚ).getD j 0]
             else (List.range 2).map
               (fun t => ([10, 20, 30, 40] : List ℚ).getD (t * 2 + j) 0)))) :=
  ⟨by decide, by decide, by decide,
    update_tdigest_spec [10, 20, 30, 40] 2 [[1], []] 5 2
      (by decide) (by decide) (by decide)⟩

theorem update_var_count (c : List ℚ) (w : ℕ) (n : ℤ) (m v : ℚ) :
    (update_var c w n m v).1 = n + (w : ℤ) := by
  unfold update_var update_mean
  split <;> rfl

theorem run_var_stream_count (chunks : List (List ℚ)) (n : ℤ)
    (m v : ℚ) : (run_var_stream chunks n m v).1 =
      n + (((chunks.map List.length).sum : ℕ) : ℤ) := by
  induction chunks generalizing n m v with
  | nil => simp [run_var_stream]
  | cons c rest ih =>
    simp only [run_var_stream, ih, update_var_count, List.map_cons,
      List.sum_cons]
    push_cast
    ring

/-- C7: from initial count 0, a sequence of variance updates with time
lengths w1, ..., wk leaves the count at exactly their sum; moreover a
single call to update_mean, update_var or update_tdigest advances the
count by exactly its w, and update_var advances it only through its
delegation to update_mean. -/
theorem count_exactness (chunks : List (List ℚ)) (mean M2 : ℚ)
    (hw : ∀ c ∈ chunks, 1 ≤ c.length) :
    (run_var_stream chunks 0 mean M2).1 =
      (((chunks.map List.length).sum : ℕ) : ℤ) ∧
    (∀ (c : List ℚ) (w : ℕ) (n : ℤ) (m : ℚ),
      (update_mean c w n m).2 = n + (w : ℤ)) ∧
    (∀ (c : List ℚ) (w : ℕ) (n : ℤ) (m v : ℚ),
      (update_var c w n m v).1 = n + (w : ℤ) ∧
      (update_var c w n m v).1 = (update_mean c w n m).2) ∧
    (∀ (flat : List ℚ) (sz : ℕ) (ds : List Digest) (n : ℤ) (w : ℕ),
      (update_tdigest flat sz ds n w).1 = n + (w : ℤ)) := by
  refine ⟨?_, ?_, ?_, ?_⟩
  · simpa using run_var_stream_count chunks 0 mean M2
  · intro c w n m
    rfl
  · intro c w n m v
    exact ⟨update_var_count c w n m v, update_var_count c w n m v⟩
  · intro flat sz ds n w
    unfold update_tdigest
    split <;> rfl

/-- Witness for count_exactness at chunks [[1], [2, 3]]. -/
theorem count_exactness_witness :
    (∀ c ∈ ([[1], [2, 3]] : List (List ℚ)), 1 ≤ c.length) ∧
    ((run_var_stream [[1], [2, 3]] 0 0 0).1 =
      (((([[1], [2, 3]] : List (List ℚ)).map List.length).sum : ℕ) : ℤ) ∧
     (∀ (c : List ℚ) (w : ℕ) (n : ℤ) (m : ℚ),
       (update_mean c w n m).2 = n + (w : ℤ)) ∧
     (∀ (c : List ℚ) (w : ℕ) (n : ℤ) (m v : ℚ),
       (update_var c w n m v).1 = n + (w : ℤ) ∧
       (update_var c w n m v).1 = (update_mean c w n m).2) ∧
     (∀ (flat : List ℚ) (sz : ℕ) (ds : List Digest) (n : ℤ) (w : ℕ),
       (update_tdigest flat sz ds n w).1 = n + (w : ℤ))) :=
  ⟨by decide, count_exactness [[1], [2, 3]] 0 0 (by decide)⟩

/-- C8 counterexample: a labeled chunk whose time axis is present but
has length 0 exposes no time axis of length at least 1, yet init_mean,
init_var and init_tdigests all succeed (returning zero-size
accumulators) instead of failing; moreover no MissingAxisError class
exists in the source at all. -/
theorem init_time0_no_error :
    (∀ p ∈ (DataArray.mk [("time", 0), ("x", 2)]).dims,
      p.1 = "time" → p.2 = 0) ∧
    init_mean ⟨[("time", 0), ("x", 2)]⟩ = some [0, 2] ∧
    init_var (Chunk.labeled ⟨[("time", 0), ("x", 2)]⟩) =
      some ([0, 2], [0, 2]) ∧
    init_tdigests ⟨[("time", 0), ("x", 2)]⟩ 60 = some ([], 0) := by
  refine ⟨by decide, ?_, ?_, ?_⟩ <;> rfl

/-- C8 amended: when the labeled chunk has no time dimension at all,
init_mean, init_var and init_tdigests each fail (xarray raises its
missing-dimension error inside tail(time=1); no MissingAxisError class
is defined in the source). -/
theorem init_missing_axis (a : DataArray)
    (h : "time" ∉ a.dims.map Prod.fst) :
    init_mean a = none ∧
    init_var (Chunk.labeled a) = none ∧
    init_tdigests a 60 = none := by
  have hall : ∀ x : ℕ, ("time", x) ∉ a.dims := by
    intro x hx
    exact h (List.mem_map_of_mem Prod.fst hx)
  refine ⟨?_, ?_, ?_⟩ <;>
    simp [init_mean, init_var, init_tdigests, tail_time1, hall]

/-- Witness for init_missing_axis at a chunk with a single lat axis. -/
theorem init_missing_axis_witness :
    ("time" ∉ (DataArray.mk [("lat", 2)]).dims.map Prod.fst) ∧
    (init_mean ⟨[("lat", 2)]⟩ = none ∧
     init_var (Chunk.labeled ⟨[("lat", 2)]⟩) = none ∧
     init_tdigests ⟨[("lat", 2)]⟩ 60 = none) :=
  ⟨by decide, init_missing_axis ⟨[("lat", 2)]⟩ (by decide)⟩

/-- C10: the two dispatch paths of init_var produce accumulators of
different rank for the same data: a labeled chunk whose time axis has
length w >= 1 yields zero-filled arrays whose shape keeps the time
dimension collapsed to length 1 (rank equal to the chunk rank), while a
raw array with leading time axis of length w yields arrays with the
leading axis removed (rank one less). -/
theorem init_var_dispatch_rank (a : DataArray) (w : ℕ) (s : List ℕ)
    (hmem : "time" ∈ a.dims.map Prod.fst)
    (htime : ∀ p ∈ a.dims, p.1 = "time" → p.2 = w)
    (hw : 1 ≤ w) :
    (init_var (Chunk.labeled a) =
      some (a.dims.map (fun p => if p.1 = "time" then 1 else p.2),
            a.dims.map (fun p => if p.1 = "time" then 1 else p.2)) ∧
     (a.dims.map (fun p => if p.1 = "time" then 1 else p.2)).length =
       a.dims.length) ∧
    (init_var (Chunk.raw (w :: s)) = some (s, s) ∧
     s.length + 1 = (w :: s).length) := by
  have hc : (a.dims.map Prod.fst).contains "time" = true := by
    simpa using hmem
  have hmap :
      (a.dims.map (fun p => if p.1 = "time" then (p.1, min p.2 1) else p)).map
          Prod.snd =
        a.dims.map (fun p => if p.1 = "time" then 1 else p.2) := by
    rw [List.map_map]
    apply List.map_congr_left
    intro p hp
    by_cases ht : p.1 = "time"
    · simp [ht, htime p hp ht, Nat.min_eq_right hw]
    · simp [ht]
  refine ⟨⟨?_, by simp⟩, ⟨rfl, by simp⟩⟩
  simp only [init_var, tail_time1, if_pos hc, Option.map_some',
    DataArray.shape, hmap]

/-- Witness for init_var_dispatch_rank at a (time 3, lat 2) chunk and
the matching raw shape [3, 2]. -/
theorem init_var_dispatch_rank_witness :
    ("time" ∈ (DataArray.mk [("time", 3), ("lat", 2)]).dims.map Prod.fst) ∧
    (∀ p ∈ (DataArray.mk [("time", 3), ("lat", 2)]).dims,
      p.1 = "time" → p.2 = 3) ∧
    (1 : ℕ) ≤ 3 ∧
    ((init_var (Chunk.labeled ⟨[("time", 3), ("lat", 2)]⟩) =
       some ((DataArray.mk [("time", 3), ("lat", 2)]).dims.map
               (fun p => if p.1 = "time" then 1 else p.2),
             (DataArray.mk [("time", 3), ("lat", 2)]).dims.map
               (fun p => if p.1 = "time" then 1 else p.2)) ∧
      ((DataArray.mk [("time", 3), ("lat", 2)]).dims.map
        (fun p => if p.1 = "time" then 1 else p.2)).length =
        (DataArray.mk [("time", 3), ("lat", 2)]).dims.length) ∧
     (init_var (Chunk.raw (3 :: [2])) = some ([2], [2]) ∧
      ([2] : List ℕ).length + 1 = ((3 : ℕ) :: [2]).length)) :=
  ⟨by decide, by decide, by decide,
    init_var_dispatch_rank ⟨[("time", 3), ("lat", 2)]⟩ 3 [2]
      (by decide) (by decide) (by decide)⟩

end OnePass
